import Mathlib

/-!
Verification of the HapticRingMonitoring core against its specification.

The development shallowly embeds the Python sources in Lean 4:

* `src/izhikevich_neuron.py` — the Izhikevich spiking-neuron model
  (`IzhikevichNeuron.step`, `IzhikevichNeuronArray.step`);
* `src/spike_encoder.py` — the `SpikeEncoder` translating mouse input into
  neuron currents (SA pressure neuron plus one RA neuron shared by motion
  and click stimuli);
* `src/haptic_renderer.py` — the waveform synthesizer
  (`create_sound_buffer`, `create_material_sound` and the per-material
  waveform generators);
* `src/pi/spike_haptic_raspi.py` — the UDP control-message loop
  (`SpikeHapticPi.callback_message`).

Real numbers of the Python code are modelled as rationals; the
transcendental calls (`np.sin`, `np.random.normal`, `np.exp`) are supplied
by an oracle structure so that every definition stays executable and the
algebraic / structural properties can be settled for every oracle.
-/

namespace HapticRing

/-! ## Izhikevich neuron (`src/izhikevich_neuron.py`) -/

/-- Immutable neuron shape parameters `a, b, c, d` of `IzhikevichNeuron`. -/
structure NeuronParams where
  a : ℚ
  b : ℚ
  c : ℚ
  d : ℚ
  deriving Repr, DecidableEq

/-- Mutable neuron state: membrane potential `v` and recovery variable `u`. -/
structure NeuronState where
  v : ℚ
  u : ℚ
  deriving Repr, DecidableEq

/-- Forward-Euler integration step of `IzhikevichNeuron.step`
(`src/izhikevich_neuron.py` lines 50-56): first the membrane potential is
updated, then the recovery variable is updated using the already-updated
membrane potential. -/
def izhEuler (p : NeuronParams) (dt I : ℚ) (s : NeuronState) : NeuronState :=
  let v1 := s.v + dt * (4/100 * s.v ^ 2 + 5 * s.v + 140 - s.u + I)
  let u1 := s.u + dt * (p.a * (p.b * v1 - s.u))
  ⟨v1, u1⟩

/-- The complete `IzhikevichNeuron.step` (`src/izhikevich_neuron.py` lines
36-63): Euler update, then threshold detection at 30 mV with reset
`v := c`, `u := u + d`.  Returns the fired flag together with the
post-call state. -/
def izhStep (p : NeuronParams) (dt I : ℚ) (s : NeuronState) : Bool × NeuronState :=
  let e := izhEuler p dt I s
  if 30 ≤ e.v then (true, ⟨p.c, e.u + p.d⟩) else (false, e)

/-- Modelled from the spec: the forward-Euler pseudocode of section 4.1
of the specification, transcribed literally (`dv`, `v`, `du`, `u`, then
the threshold test on the updated `v`). -/
def specNeuronStep (p : NeuronParams) (dt I : ℚ) (s : NeuronState) :
    Bool × NeuronState :=
  let dv := 4/100 * s.v ^ 2 + 5 * s.v + 140 - s.u + I
  let v := s.v + dt * dv
  let du := p.a * (p.b * v - s.u)
  let u := s.u + dt * du
  if 30 ≤ v then (true, ⟨p.c, u + p.d⟩) else (false, ⟨v, u⟩)

/-- Vectorized Euler phase of `IzhikevichNeuronArray.step`
(`src/izhikevich_neuron.py` lines 105-110): the elementwise updates
`v += dt*dv_dt` and then `u += dt*du_dt` over the parallel arrays.
Parallel NumPy arrays of equal length are modelled as lists zipped by
index. -/
def izhArrayEuler (dt : ℚ) (ps : List NeuronParams) (Is : List ℚ)
    (ss : List NeuronState) : List NeuronState :=
  let v1 := List.zipWith
    (fun s I => s.v + dt * (4/100 * s.v ^ 2 + 5 * s.v + 140 - s.u + I)) ss Is
  let u1 := List.zipWith
    (fun x v => x.2.u + dt * (x.1.a * (x.1.b * v - x.2.u))) (ps.zip ss) v1
  List.zipWith NeuronState.mk v1 u1

/-- The complete `IzhikevichNeuronArray.step` (`src/izhikevich_neuron.py`
lines 92-117): vectorized Euler update, elementwise fired mask
`v >= 30`, and masked reset `v[mask] = c[mask]`, `u[mask] += d[mask]`. -/
def izhArrayStep (dt : ℚ) (ps : List NeuronParams) (Is : List ℚ)
    (ss : List NeuronState) : List (Bool × NeuronState) :=
  let e := izhArrayEuler dt ps Is ss
  List.zipWith
    (fun p s => if 30 ≤ s.v then (true, (⟨p.c, s.u + p.d⟩ : NeuronState))
                else (false, s)) ps e

/-- The vectorized array step agrees index by index with the scalar
`IzhikevichNeuron.step`: all NumPy operations involved are elementwise. -/
theorem izhArrayStep_eq_zipWith (dt : ℚ) (ps : List NeuronParams)
    (Is : List ℚ) (ss : List NeuronState) :
    izhArrayStep dt ps Is ss =
      List.zipWith (fun p x => izhStep p dt x.1 x.2) ps (Is.zip ss) := by
  induction ps generalizing Is ss with
  | nil => simp [izhArrayStep, izhArrayEuler]
  | cons p ps ih =>
    cases Is with
    | nil => simp [izhArrayStep, izhArrayEuler]
    | cons I Is =>
      cases ss with
      | nil => simp [izhArrayStep, izhArrayEuler]
      | cons s ss =>
        have ih' := ih Is ss
        simp only [izhArrayStep, izhArrayEuler, List.zip_cons_cons,
          List.zipWith_cons_cons] at ih' ⊢
        rw [List.cons.injEq]
        exact ⟨by simp [izhStep, izhEuler], ih'⟩

/-- C1: after any call to `IzhikevichNeuron.step`, if `fired = true` then
`v` equals the reset parameter `c` and `u` equals its pre-reset
(post-integration) value plus `d`, so a caller observing `fired = true`
always sees the post-reset `v`; if `fired = false` then `v < 30`.  The
two outcomes are mutually exclusive and exhaustive, and the vectorized
`IzhikevichNeuronArray.step` shows the same post-reset state at every
index. -/
theorem izh_threshold_invariant (p : NeuronParams) (dt I : ℚ) (s : NeuronState)
    (ps : List NeuronParams) (Is : List ℚ) (ss : List NeuronState) (i : ℕ)
    (hp : ps.get? i = some p) (hI : Is.get? i = some I)
    (hs : ss.get? i = some s) :
    ((izhStep p dt I s).1 = true →
      (izhStep p dt I s).2.v = p.c ∧
      (izhStep p dt I s).2.u = (izhEuler p dt I s).u + p.d) ∧
    ((izhStep p dt I s).1 = false → (izhStep p dt I s).2.v < 30) ∧
    ((izhStep p dt I s).1 = true ↔ ¬ (izhStep p dt I s).1 = false) ∧
    (izhArrayStep dt ps Is ss).get? i = some (izhStep p dt I s) := by
  refine ⟨?_, ?_, ?_, ?_⟩
  · intro h
    unfold izhStep at h ⊢
    by_cases hv : 30 ≤ (izhEuler p dt I s).v <;> simp [hv] at h ⊢
  · intro h
    unfold izhStep at h ⊢
    by_cases hv : 30 ≤ (izhEuler p dt I s).v <;> simp [hv] at h ⊢
    linarith
  · cases hfire : (izhStep p dt I s).1 <;> simp [hfire]
  · rw [izhArrayStep_eq_zipWith, List.get?_zipWith_eq_some]
    exact ⟨p, (I, s), hp, by rw [List.get?_zip_eq_some]; exact ⟨hI, hs⟩, rfl⟩

/-- Witness for C1 at a concrete neuron (`a=1/50`, `b=1/5`, `c=-65`,
`d=8`, state `v=-70`, `u=-14`, `dt=1`, `I=20`). -/
theorem izh_threshold_invariant_witness :
    ((izhStep ⟨1/50, 1/5, -65, 8⟩ 1 20 ⟨-70, -14⟩).1 = true →
      (izhStep ⟨1/50, 1/5, -65, 8⟩ 1 20 ⟨-70, -14⟩).2.v = (-65 : ℚ) ∧
      (izhStep ⟨1/50, 1/5, -65, 8⟩ 1 20 ⟨-70, -14⟩).2.u =
        (izhEuler ⟨1/50, 1/5, -65, 8⟩ 1 20 ⟨-70, -14⟩).u + 8) ∧
    ((izhStep ⟨1/50, 1/5, -65, 8⟩ 1 20 ⟨-70, -14⟩).1 = false →
      (izhStep ⟨1/50, 1/5, -65, 8⟩ 1 20 ⟨-70, -14⟩).2.v < 30) ∧
    ((izhStep ⟨1/50, 1/5, -65, 8⟩ 1 20 ⟨-70, -14⟩).1 = true ↔
      ¬ (izhStep ⟨1/50, 1/5, -65, 8⟩ 1 20 ⟨-70, -14⟩).1 = false) ∧
    (izhArrayStep 1 [⟨1/50, 1/5, -65, 8⟩] [20] [⟨-70, -14⟩]).get? 0 =
      some (izhStep ⟨1/50, 1/5, -65, 8⟩ 1 20 ⟨-70, -14⟩) :=
  izh_threshold_invariant ⟨1/50, 1/5, -65, 8⟩ 1 20 ⟨-70, -14⟩
    [⟨1/50, 1/5, -65, 8⟩] [20] [⟨-70, -14⟩] 0 rfl rfl rfl

/-- C2: `IzhikevichNeuron.step` computes exactly the forward-Euler update
of the specification pseudocode (section 4.1), in the specified order:
`v` first, then `u` from the already-updated `v`, and only then the
threshold test `v >= 30`. -/
theorem izh_step_refines_spec (p : NeuronParams) (dt I : ℚ) (s : NeuronState) :
    izhStep p dt I s = specNeuronStep p dt I s := rfl

/-! ## Spike encoder (`src/spike_encoder.py`) -/

/-- Entries of the `input_config` dictionary read by `SpikeEncoder.step`. -/
structure EncoderConfig where
  ra_scl_chg : ℚ
  RA_SUSTAIN_DURATION : ℤ
  ra_scl_spd_dev : ℚ
  ra_clip_min : ℚ
  ra_clip_max : ℚ
  ra_min_spd_for_input : ℚ
  deriving Repr, DecidableEq

/-- Mutable state owned by `SpikeEncoder`: the SA neuron (parameters are
mutable because of adaptation), the RA neuron (its `d` is mutable because
of the click burst), the frozen baseline constants and the click-sustain
bookkeeping. -/
structure EncoderState where
  saP : NeuronParams
  sa : NeuronState
  sa_init_a : ℚ
  raP : NeuronParams
  ra : NeuronState
  ra_base_d : ℚ
  ra_click_d_burst : ℚ
  neuron_dt_ms : ℚ
  input_mag_sa : ℚ
  prev_input_mag_sa_for_ra : ℚ
  ra_sustained_click_input : ℚ
  ra_sustain_counter : ℤ
  deriving Repr, DecidableEq

/-- The `np.clip(x, lo, hi)` kernel: `min(max(x, lo), hi)`. -/
def npClip (x lo hi : ℚ) : ℚ := min (max x lo) hi

/-- The `SpikeEncoder.update_sa_input` operation (`src/spike_encoder.py`
lines 52-66): store the click magnitude; a strictly positive magnitude
resets the SA adaptation parameter `a` to its configured initial value. -/
def updateSaInput (s : EncoderState) (click_magnitude : ℚ) : EncoderState :=
  { s with input_mag_sa := click_magnitude,
           saP := if 0 < click_magnitude
                  then { s.saP with a := s.sa_init_a } else s.saP }

/-- SA phase of `SpikeEncoder.step` (`src/spike_encoder.py` lines 85-91):
step the SA neuron with the held input magnitude; on a spike divide its
`a` parameter by 1.05. -/
def saPhase (s : EncoderState) : Bool × EncoderState :=
  let r := izhStep s.saP s.neuron_dt_ms s.input_mag_sa s.sa
  (r.1, { s with sa := r.2,
                 saP := if r.1 then { s.saP with a := s.saP.a / (21/20) }
                        else s.saP })

/-- Click-edge detection phase of `SpikeEncoder.step`
(`src/spike_encoder.py` lines 93-104): when `|input_mag_sa - prev|`
exceeds 0.1 the sustained click input is set to `|delta| * ra_scl_chg`,
the sustain counter is set to `RA_SUSTAIN_DURATION` and the RA neuron's
`d` is replaced by the burst value. -/
def armPhase (cfg : EncoderConfig) (s : EncoderState) : EncoderState :=
  let delta := s.input_mag_sa - s.prev_input_mag_sa_for_ra
  if 1/10 < |delta| then
    { s with ra_sustained_click_input := |delta| * cfg.ra_scl_chg,
             ra_sustain_counter := cfg.RA_SUSTAIN_DURATION,
             raP := { s.raP with d := s.ra_click_d_burst } }
  else s

/-- Sustain phase of `SpikeEncoder.step` (`src/spike_encoder.py` lines
106-116): while the counter is positive the sustained click input is fed
this tick and the counter decremented; when the decrement reaches zero
the sustained input is zeroed and the RA neuron's `d` restored to its
baseline.  Returns the click current for this tick with the new state. -/
def sustainPhase (s : EncoderState) : ℚ × EncoderState :=
  if 0 < s.ra_sustain_counter then
    let c := s.ra_sustain_counter - 1
    if c = 0 then
      (s.ra_sustained_click_input,
       { s with ra_sustain_counter := c, ra_sustained_click_input := 0,
                raP := { s.raP with d := s.ra_base_d } })
    else (s.ra_sustained_click_input, { s with ra_sustain_counter := c })
  else (0, s)

/-- The complete `SpikeEncoder.step` (`src/spike_encoder.py` lines
68-140): SA phase, click-edge detection, sustain handling, saving the
previous SA input, motion current gated by `mouse_pressed` and the speed
threshold, a single `np.clip` of the summed click+motion current, and the
RA neuron step.  Returns
`(sa_fired, ra_fired, sa (v,u), ra (v,u))` with the successor state. -/
def encoderStep (cfg : EncoderConfig) (s : EncoderState)
    (mouse_speed _avg_mouse_speed material_roughness : ℚ)
    (mouse_pressed : Bool) :
    (Bool × Bool × NeuronState × NeuronState) × EncoderState :=
  let r := saPhase s
  let s2 := armPhase cfg r.2
  let t := sustainPhase s2
  let s4 := { t.2 with prev_input_mag_sa_for_ra := t.2.input_mag_sa }
  let ra_I_mot := if mouse_pressed ∧ cfg.ra_min_spd_for_input < mouse_speed
                  then mouse_speed * material_roughness * cfg.ra_scl_spd_dev
                  else 0
  let final_ra_I := npClip (t.1 + ra_I_mot) cfg.ra_clip_min cfg.ra_clip_max
  let q := izhStep s4.raP s4.neuron_dt_ms final_ra_I s4.ra
  ((r.1, q.1, r.2.sa, q.2), { s4 with ra := q.2 })

/-- State invariant of the click-sustain machinery: the counter is never
negative, and whenever it is zero the RA neuron's `d` is at its baseline
and the sustained click input is zero. -/
def EncoderInv (s : EncoderState) : Prop :=
  0 ≤ s.ra_sustain_counter ∧
  (s.ra_sustain_counter = 0 →
    s.raP.d = s.ra_base_d ∧ s.ra_sustained_click_input = 0)

/-- C5: over every `step()` call the click-sustain counter stays
nonnegative; on a tick without a press/release edge an armed counter
decreases by exactly 1; whenever the counter has reached 0 at the end of
a tick the burst parameter `d` has been restored to its baseline and the
sustain magnitude zeroed, and it stays at the baseline on the following
(edge-free) tick. -/
theorem click_sustain_invariant (cfg : EncoderConfig) (s s' : EncoderState)
    (spd avg rough : ℚ) (pressed : Bool)
    (hDur : 1 ≤ cfg.RA_SUSTAIN_DURATION) (hInv : EncoderInv s)
    (hs' : s' = (encoderStep cfg s spd avg rough pressed).2) :
    EncoderInv s' ∧
    0 ≤ s'.ra_sustain_counter ∧
    (|s.input_mag_sa - s.prev_input_mag_sa_for_ra| ≤ 1/10 →
      0 < s.ra_sustain_counter →
      s'.ra_sustain_counter = s.ra_sustain_counter - 1) ∧
    (s'.ra_sustain_counter = 0 →
      s'.raP.d = s.ra_base_d ∧ s'.ra_sustained_click_input = 0) ∧
    (s.ra_sustain_counter = 0 →
      |s.input_mag_sa - s.prev_input_mag_sa_for_ra| ≤ 1/10 →
      s'.raP.d = s.ra_base_d ∧ s'.ra_sustain_counter = 0) := by
  obtain ⟨h0, hz⟩ := hInv
  subst hs'
  have e1 : (saPhase s).2.input_mag_sa = s.input_mag_sa := rfl
  have e2 : (saPhase s).2.prev_input_mag_sa_for_ra =
      s.prev_input_mag_sa_for_ra := rfl
  have e3 : (saPhase s).2.ra_sustain_counter = s.ra_sustain_counter := rfl
  have e4 : (saPhase s).2.ra_sustained_click_input =
      s.ra_sustained_click_input := rfl
  have e5 : (saPhase s).2.raP = s.raP := rfl
  have e6 : (saPhase s).2.ra_base_d = s.ra_base_d := rfl
  have e7 : (saPhase s).2.ra_click_d_burst = s.ra_click_d_burst := rfl
  unfold EncoderInv encoderStep armPhase sustainPhase
  simp only [e1, e2, e3, e4, e5, e6, e7]
  split_ifs <;> simp_all <;> omega

/-- Concrete encoder configuration for witnesses (the example values of
`src/spike_encoder.py` lines 152-160, sustain duration 5). -/
def encCfg0 : EncoderConfig := ⟨20, 5, 1/50, -30, 30, 1⟩

/-- Concrete encoder state for the C5 witness: sustain window armed with
two ticks remaining, burst `d` active, no pending edge. -/
def encS0 : EncoderState :=
  { saP := ⟨1/20, 1/4, -65, 6⟩, sa := ⟨-70, -14⟩, sa_init_a := 1/20,
    raP := ⟨2/5, 1/4, -65, 10⟩, ra := ⟨-65, -65/4⟩,
    ra_base_d := 3/2, ra_click_d_burst := 10, neuron_dt_ms := 1,
    input_mag_sa := 12, prev_input_mag_sa_for_ra := 12,
    ra_sustained_click_input := 17, ra_sustain_counter := 2 }

/-- Successor state of `encS0` under one edge-free encoder tick. -/
def encS0' : EncoderState := (encoderStep encCfg0 encS0 0 0 (3/10) false).2

/-- Witness for C5: a concrete armed encoder state on an edge-free tick
satisfies the invariant and decrements its counter by exactly one. -/
theorem click_sustain_invariant_witness :
    (1 ≤ encCfg0.RA_SUSTAIN_DURATION ∧ EncoderInv encS0) ∧
    (EncoderInv encS0' ∧
     0 ≤ encS0'.ra_sustain_counter ∧
     (|encS0.input_mag_sa - encS0.prev_input_mag_sa_for_ra| ≤ 1/10 →
       0 < encS0.ra_sustain_counter →
       encS0'.ra_sustain_counter = encS0.ra_sustain_counter - 1) ∧
     (encS0'.ra_sustain_counter = 0 →
       encS0'.raP.d = encS0.ra_base_d ∧
       encS0'.ra_sustained_click_input = 0) ∧
     (encS0.ra_sustain_counter = 0 →
       |encS0.input_mag_sa - encS0.prev_input_mag_sa_for_ra| ≤ 1/10 →
       encS0'.raP.d = encS0.ra_base_d ∧ encS0'.ra_sustain_counter = 0)) :=
  ⟨⟨by decide, by unfold EncoderInv; decide⟩,
   click_sustain_invariant encCfg0 encS0 encS0' 0 0 (3/10) false
     (by decide) (by unfold EncoderInv; decide) rfl⟩

/-- C10: when a press/release edge is detected while an earlier sustain
window is still active, the window restarts rather than accumulates: at
detection the counter is reset to the full configured duration, the
sustain magnitude is replaced by the new `|delta| * ra_scl_chg` (not
added to the old magnitude) and the RA `d` parameter is set to the burst
value; at the end of the tick (which consumes one sustain step) the
counter is `RA_SUSTAIN_DURATION - 1` and magnitude and burst `d` are
still in place. -/
theorem click_rearm_restarts (cfg : EncoderConfig) (s s' : EncoderState)
    (spd avg rough : ℚ) (pressed : Bool)
    (hEdge : 1/10 < |s.input_mag_sa - s.prev_input_mag_sa_for_ra|)
    (_hActive : 0 < s.ra_sustain_counter)
    (hDur : 2 ≤ cfg.RA_SUSTAIN_DURATION)
    (hs' : s' = (encoderStep cfg s spd avg rough pressed).2) :
    (armPhase cfg (saPhase s).2).ra_sustain_counter =
      cfg.RA_SUSTAIN_DURATION ∧
    (armPhase cfg (saPhase s).2).ra_sustained_click_input =
      |s.input_mag_sa - s.prev_input_mag_sa_for_ra| * cfg.ra_scl_chg ∧
    (armPhase cfg (saPhase s).2).raP.d = s.ra_click_d_burst ∧
    s'.ra_sustain_counter = cfg.RA_SUSTAIN_DURATION - 1 ∧
    s'.ra_sustained_click_input =
      |s.input_mag_sa - s.prev_input_mag_sa_for_ra| * cfg.ra_scl_chg ∧
    s'.raP.d = s.ra_click_d_burst := by
  subst hs'
  have e1 : (saPhase s).2.input_mag_sa = s.input_mag_sa := rfl
  have e2 : (saPhase s).2.prev_input_mag_sa_for_ra =
      s.prev_input_mag_sa_for_ra := rfl
  have e3 : (saPhase s).2.ra_sustain_counter = s.ra_sustain_counter := rfl
  have e4 : (saPhase s).2.ra_sustained_click_input =
      s.ra_sustained_click_input := rfl
  have e5 : (saPhase s).2.raP = s.raP := rfl
  have e6 : (saPhase s).2.ra_base_d = s.ra_base_d := rfl
  have e7 : (saPhase s).2.ra_click_d_burst = s.ra_click_d_burst := rfl
  unfold encoderStep armPhase sustainPhase
  simp only [e1, e2, e3, e4, e5, e6, e7]
  split_ifs <;> simp_all <;> omega

/-- Concrete encoder state for the C10 witness: sustain window still
active (counter 2, leftover magnitude 17) when a fresh press edge of
magnitude 12 arrives. -/
def encS1 : EncoderState :=
  { saP := ⟨1/20, 1/4, -65, 6⟩, sa := ⟨-70, -14⟩, sa_init_a := 1/20,
    raP := ⟨2/5, 1/4, -65, 10⟩, ra := ⟨-65, -65/4⟩,
    ra_base_d := 3/2, ra_click_d_burst := 10, neuron_dt_ms := 1,
    input_mag_sa := 12, prev_input_mag_sa_for_ra := 0,
    ra_sustained_click_input := 17, ra_sustain_counter := 2 }

/-- Successor state of `encS1` under the edge tick. -/
def encS1' : EncoderState := (encoderStep encCfg0 encS1 0 0 (3/10) true).2

/-- Witness for C10: the concrete mid-window edge restarts the window
with magnitude `12 * 20 = 240`, full duration 5 at arm time (4 after the
tick), and the burst `d`. -/
theorem click_rearm_restarts_witness :
    (1/10 < |encS1.input_mag_sa - encS1.prev_input_mag_sa_for_ra| ∧
     0 < encS1.ra_sustain_counter ∧ 2 ≤ encCfg0.RA_SUSTAIN_DURATION) ∧
    ((armPhase encCfg0 (saPhase encS1).2).ra_sustain_counter =
       encCfg0.RA_SUSTAIN_DURATION ∧
     (armPhase encCfg0 (saPhase encS1).2).ra_sustained_click_input =
       |encS1.input_mag_sa - encS1.prev_input_mag_sa_for_ra| *
         encCfg0.ra_scl_chg ∧
     (armPhase encCfg0 (saPhase encS1).2).raP.d = encS1.ra_click_d_burst ∧
     encS1'.ra_sustain_counter = encCfg0.RA_SUSTAIN_DURATION - 1 ∧
     encS1'.ra_sustained_click_input =
       |encS1.input_mag_sa - encS1.prev_input_mag_sa_for_ra| *
         encCfg0.ra_scl_chg ∧
     encS1'.raP.d = encS1.ra_click_d_burst) :=
  ⟨⟨by norm_num [encS1], by decide, by decide⟩,
   click_rearm_restarts encCfg0 encS1 encS1' 0 0 (3/10) true
     (by norm_num [encS1]) (by decide) (by decide) rfl⟩

/-- Concrete encoder state with a pending sustained click current of 240
(three sustain ticks remaining) and no fresh edge. -/
def encS2 : EncoderState :=
  { saP := ⟨1/20, 1/4, -65, 6⟩, sa := ⟨-70, -14⟩, sa_init_a := 1/20,
    raP := ⟨2/5, 1/4, -65, 10⟩, ra := ⟨-65, -65/4⟩,
    ra_base_d := 3/2, ra_click_d_burst := 10, neuron_dt_ms := 1,
    input_mag_sa := 12, prev_input_mag_sa_for_ra := 12,
    ra_sustained_click_input := 240, ra_sustain_counter := 3 }

/-- C4 exhibit: in `src/spike_encoder.py` the click current is not
clipped to a click-specific range; the single RA neuron is stepped with
the one current `np.clip(click + motion, ra_clip_min, ra_clip_max)`.
Here the sustained click current 240 is clamped by the shared motion
range `[-30, 30]` to 30, and that single value drives the RA neuron. -/
theorem encoder_shared_clip_eval :
    (encoderStep encCfg0 encS2 0 0 1 false).2.ra =
      (izhStep encS2.raP 1 30 encS2.ra).2 ∧
    npClip (encS2.ra_sustained_click_input + 0) encCfg0.ra_clip_min
      encCfg0.ra_clip_max = 30 := by
  constructor
  · norm_num [encoderStep, saPhase, armPhase, sustainPhase, izhStep,
      izhEuler, npClip, encS2, encCfg0, min_def, max_def]
  · norm_num [npClip, encS2, encCfg0, min_def, max_def]

/-- Concrete encoder state with both a sustained click current (20, two
ticks remaining) and motion input available on the same tick. -/
def encS3 : EncoderState :=
  { saP := ⟨1/20, 1/4, -65, 6⟩, sa := ⟨-70, -14⟩, sa_init_a := 1/20,
    raP := ⟨2/5, 1/4, -65, 10⟩, ra := ⟨-65, -65/4⟩,
    ra_base_d := 3/2, ra_click_d_burst := 10, neuron_dt_ms := 1,
    input_mag_sa := 12, prev_input_mag_sa_for_ra := 12,
    ra_sustained_click_input := 20, ra_sustain_counter := 2 }

/-- C3 exhibit: `SpikeEncoder.step` of `src/spike_encoder.py` returns a
4-tuple — one SA fired flag, one RA fired flag and two `(v, u)` pairs —
and the click and motion stimuli drive the same single RA neuron with
their summed current (here `20 + 200*1*(1/50) = 24`), not three
independently parameterized channels. -/
theorem encoder_two_channel_eval :
    (encoderStep encCfg0 encS3 200 0 1 true).1 =
      ((saPhase encS3).1, (izhStep encS3.raP 1 24 encS3.ra).1,
       (saPhase encS3).2.sa, (izhStep encS3.raP 1 24 encS3.ra).2) := by
  norm_num [encoderStep, saPhase, armPhase, sustainPhase, izhStep,
    izhEuler, npClip, encS3, encCfg0, min_def, max_def]

/-! ## Haptic renderer (`src/haptic_renderer.py`) -/

/-- Oracle for the NumPy primitives that have no rational closed form:
`sinTwoPi x` stands for `np.sin(2 * np.pi * x)`, `gauss i` for the `i`-th
draw of an `np.random.normal(0, 1, n)` vector, and `expQ x` for
`np.exp(x)`.  Every generator below is a deterministic function of the
oracle, so properties proved for every oracle hold for the floating-point
originals. -/
structure Osc where
  sinTwoPi : ℚ → ℚ
  gauss : ℕ → ℚ
  expQ : ℚ → ℚ

/-- Truncation toward zero, the semantics of Python `int()` and of NumPy
`astype(np.int16)` for in-range values. -/
def ratTrunc (q : ℚ) : ℤ := if 0 ≤ q then ⌊q⌋ else ⌈q⌉

/-- Sample count `int(sample_rate * (ms / 1000.0))`. -/
def nSamples (rate : ℕ) (ms : ℚ) : ℕ := (ratTrunc (rate * ms / 1000)).toNat

/-- The time axis `np.linspace(0, ms/1000, n, False)` at index `i`. -/
def timeAt (ms : ℚ) (n i : ℕ) : ℚ := ms / 1000 * i / n

/-- The inclusive `np.linspace(start, stop, n)`.  For `n = 1` the rational
division by `n - 1 = 0` yields 0, so the single element is `start`,
matching NumPy. -/
def linTo (start stop : ℚ) (n : ℕ) : List ℚ :=
  (List.range n).map fun (i : ℕ) =>
    start + (stop - start) * (i : ℚ) / ((n - 1 : ℕ) : ℚ)

/-- The fade-out step shared by `create_sound_buffer` and all material
generators except metal (`src/haptic_renderer.py` lines 57-61): when
`n_s > fade_out_samples and fade_out_ms > 0` the last `fade_out_samples`
samples are multiplied by `np.linspace(1, 0, fade_out_samples)`;
otherwise the buffer is returned unchanged. -/
def applyFadeOut (rate : ℕ) (fade_out_ms : ℚ) (w : List ℚ) : List ℚ :=
  let k := (ratTrunc (rate * fade_out_ms / 1000)).toNat
  if k < w.length ∧ 0 < fade_out_ms then
    w.take (w.length - k) ++
      List.zipWith (· * ·) (w.drop (w.length - k)) (linTo 1 0 k)
  else w

/-- The attack ramp `wave_data[:attack_samples] *= np.linspace(0, 1,
attack_samples)`, applied only when `attack_samples < n_s`. -/
def applyAttack (attack_samples : ℕ) (w : List ℚ) : List ℚ :=
  if attack_samples < w.length then
    List.zipWith (· * ·) (w.take attack_samples) (linTo 0 1 attack_samples)
      ++ w.drop attack_samples
  else w

/-- Quantization `(x * 32767).astype(np.int16)` of an in-range sample:
multiply by 32767 and truncate toward zero. -/
def quantize (x : ℚ) : ℤ := ratTrunc (x * 32767)

/-- The final clip `np.clip(wave_data, -1, 1)` of the material
generators. -/
def clipUnit (x : ℚ) : ℚ := min (max x (-1)) 1

/-- `HapticRenderer.create_sound_buffer` (`src/haptic_renderer.py` lines
35-64): plain sine `amp * sin(2 pi hz t)`, fade-out, then quantization
with no clipping step. -/
def createSoundBuffer (o : Osc) (rate : ℕ) (hz ms amp fade_out_ms : ℚ) :
    List ℤ :=
  let n := nSamples rate ms
  let w := (List.range n).map fun i => amp * o.sinTwoPi (hz * timeAt ms n i)
  (applyFadeOut rate fade_out_ms w).map quantize

/-- Zero-padded lookup used by `np.convolve(..., 'same')`. -/
def zeroPad (n : ℕ) (x : ℕ → ℚ) (j : ℤ) : ℚ :=
  if 0 ≤ j ∧ j < (n : ℤ) then x j.toNat else 0

/-- `np.convolve(x, np.ones(50)/50, mode='same')` at index `i` for a
length-`n` input (`src/haptic_renderer.py` line 187). -/
def convSame50 (n : ℕ) (x : ℕ → ℚ) (i : ℕ) : ℚ :=
  (∑ k ∈ Finset.range 50, zeroPad n x ((i : ℤ) + 24 - k)) / 50

/-- In-place first-order low-pass loop
`y[i] = a*x[i] + b*y[i-1]` used by the wood and fabric generators,
tail after the unchanged first element. -/
def iirAux (a b : ℚ) (prev : ℚ) : List ℚ → List ℚ
  | [] => []
  | x :: xs => (a * x + b * prev) :: iirAux a b (a * x + b * prev) xs

/-- The full in-place low-pass: the first element is kept, later
elements are `a*x[i] + b*y[i-1]`. -/
def iirSmooth (a b : ℚ) : List ℚ → List ℚ
  | [] => []
  | x :: xs => x :: iirAux a b x xs

/-- `np.sign`. -/
def sgn (x : ℚ) : ℚ := if x < 0 then -1 else if x = 0 then 0 else 1

/-- `HapticRenderer._create_glass_waveform` (`src/haptic_renderer.py`
lines 170-201): fundamental plus two weak harmonics plus heavily smoothed
noise, 1 ms attack, fade-out, clip to `[-1, 1]`, quantize. -/
def glassWaveform (o : Osc) (rate : ℕ) (hz ms amp fade_out_ms brightness : ℚ) :
    List ℤ :=
  let n := nSamples rate ms
  let noise := fun i => convSame50 n (fun j => amp * (2/1000) * o.gauss j) i
  let w := (List.range n).map fun i =>
    amp * (9/10) * o.sinTwoPi (hz * timeAt ms n i) +
    amp * (15/100) * brightness * (3/10) * o.sinTwoPi (hz * 2 * timeAt ms n i) +
    amp * (5/100) * brightness * (2/10) * o.sinTwoPi (hz * 3 * timeAt ms n i) +
    noise i
  let w1 := applyAttack (ratTrunc ((1/1000) * rate)).toNat w
  let w2 := applyFadeOut rate fade_out_ms w1
  w2.map fun x => quantize (clipUnit x)

/-- Metal fade-out (`src/haptic_renderer.py` lines 233-236): the window
is `max(int(rate*fade_out_ms/1000), int(n_s*0.3))` and the only guard is
`n_s > fade_out_samples` (no `fade_out_ms > 0` check). -/
def applyFadeMetal (rate : ℕ) (fade_out_ms : ℚ) (w : List ℚ) : List ℚ :=
  let k := max (ratTrunc (rate * fade_out_ms / 1000)).toNat
             (ratTrunc ((w.length : ℚ) * (3/10))).toNat
  if k < w.length then
    w.take (w.length - k) ++
      List.zipWith (· * ·) (w.drop (w.length - k)) (linTo 1 0 k)
  else w

/-- `HapticRenderer._create_metal_waveform` (`src/haptic_renderer.py`
lines 203-238): three harmonics under a slow ring modulation plus light
noise, 5 ms attack, the metal fade, clip, quantize. -/
def metalWaveform (o : Osc) (rate : ℕ) (hz ms amp fade_out_ms resonance : ℚ) :
    List ℤ :=
  let n := nSamples rate ms
  let w := (List.range n).map fun i =>
    (amp * (6/10) * o.sinTwoPi (hz * timeAt ms n i) +
     amp * (3/10) * resonance * (6/10) * o.sinTwoPi (hz * 2 * timeAt ms n i) +
     amp * (2/10) * resonance * (6/10) * o.sinTwoPi (hz * 3 * timeAt ms n i)) *
      (1 + (15/100) * o.sinTwoPi (hz * (5/100) * timeAt ms n i)) +
    amp * (1/100) * o.gauss i
  let w1 := applyAttack (ratTrunc ((5/1000) * rate)).toNat w
  let w2 := applyFadeMetal rate fade_out_ms w1
  w2.map fun x => quantize (clipUnit x)

/-- `HapticRenderer._create_wood_waveform` (`src/haptic_renderer.py`
lines 240-274): three harmonics, a sub-harmonic, low-pass-filtered
texture noise, 3 ms attack, fade-out, clip, quantize. -/
def woodWaveform (o : Osc) (rate : ℕ) (hz ms amp fade_out_ms warmth : ℚ) :
    List ℤ :=
  let n := nSamples rate ms
  let texture := iirSmooth (7/10) (3/10)
    ((List.range n).map fun i => amp * (2/100) * o.gauss i)
  let w := (List.range n).map fun i =>
    amp * (8/10) * o.sinTwoPi (hz * timeAt ms n i) +
    amp * (3/10) * warmth * o.sinTwoPi (hz * 2 * timeAt ms n i) +
    amp * (2/10) * warmth * o.sinTwoPi (hz * 3 * timeAt ms n i) +
    amp * (1/10) * warmth * o.sinTwoPi (hz * (5/10) * timeAt ms n i) +
    texture.getD i 0
  let w1 := applyAttack (ratTrunc ((3/1000) * rate)).toNat w
  let w2 := applyFadeOut rate fade_out_ms w1
  w2.map fun x => quantize (clipUnit x)

/-- `HapticRenderer._create_plastic_waveform` (`src/haptic_renderer.py`
lines 276-308): fundamental, one harmonic, a faint square component, an
exponential decay envelope, 1 ms attack, fade-out, clip, quantize. -/
def plasticWaveform (o : Osc) (rate : ℕ) (hz ms amp fade_out_ms hardness : ℚ) :
    List ℤ :=
  let n := nSamples rate ms
  let w := (List.range n).map fun i =>
    (amp * (8/10) * o.sinTwoPi (hz * timeAt ms n i) +
     amp * (2/10) * hardness * (7/10) * o.sinTwoPi (hz * 2 * timeAt ms n i) +
     amp * (3/100) * sgn (o.sinTwoPi (hz * timeAt ms n i))) *
      o.expQ (-3 * timeAt ms n i / (ms / 1000))
  let w1 := applyAttack (ratTrunc ((1/1000) * rate)).toNat w
  let w2 := applyFadeOut rate fade_out_ms w1
  w2.map fun x => quantize (clipUnit x)

/-- `HapticRenderer._create_fabric_waveform` (`src/haptic_renderer.py`
lines 310-340): fundamental plus strongly low-pass-filtered noise, 10 ms
attack, fade-out, clip, quantize. -/
def fabricWaveform (o : Osc) (rate : ℕ) (hz ms amp fade_out_ms softness : ℚ) :
    List ℤ :=
  let n := nSamples rate ms
  let noise := iirSmooth (3/10) (7/10)
    ((List.range n).map fun i => amp * (3/10) * softness * o.gauss i)
  let w := (List.range n).map fun i =>
    amp * (6/10) * o.sinTwoPi (hz * timeAt ms n i) + noise.getD i 0
  let w1 := applyAttack (ratTrunc ((1/100) * rate)).toNat w
  let w2 := applyFadeOut rate fade_out_ms w1
  w2.map fun x => quantize (clipUnit x)

/-- `HapticRenderer._create_ceramic_waveform` (`src/haptic_renderer.py`
lines 342-368): four harmonics, 2 ms attack, fade-out, clip, quantize. -/
def ceramicWaveform (o : Osc) (rate : ℕ)
    (hz ms amp fade_out_ms brittleness : ℚ) : List ℤ :=
  let n := nSamples rate ms
  let w := (List.range n).map fun i =>
    amp * (7/10) * o.sinTwoPi (hz * timeAt ms n i) +
    amp * (3/10) * brittleness * o.sinTwoPi (hz * 2 * timeAt ms n i) +
    amp * (2/10) * brittleness * o.sinTwoPi (hz * 3 * timeAt ms n i) +
    amp * (1/10) * brittleness * o.sinTwoPi (hz * 4 * timeAt ms n i)
  let w1 := applyAttack (ratTrunc ((2/1000) * rate)).toNat w
  let w2 := applyFadeOut rate fade_out_ms w1
  w2.map fun x => quantize (clipUnit x)

/-- `HapticRenderer._create_rubber_waveform` (`src/haptic_renderer.py`
lines 370-401): detuned fundamental and harmonic under elastic
modulation, 5 ms attack, exponential decay, fade-out, clip, quantize. -/
def rubberWaveform (o : Osc) (rate : ℕ)
    (hz ms amp fade_out_ms elasticity : ℚ) : List ℤ :=
  let n := nSamples rate ms
  let w := (List.range n).map fun i =>
    (amp * (8/10) * o.sinTwoPi (hz * (8/10) * timeAt ms n i) +
     amp * (2/10) * elasticity * o.sinTwoPi (hz * (16/10) * timeAt ms n i)) *
      (1 + (2/10) * o.sinTwoPi (hz * (1/10) * timeAt ms n i))
  let w1 := applyAttack (ratTrunc ((5/1000) * rate)).toNat w
  let w2 := w1.zipWith (· * ·)
    ((List.range n).map fun i => o.expQ (-2 * timeAt ms n i / (ms / 1000)))
  let w3 := applyFadeOut rate fade_out_ms w2
  w3.map fun x => quantize (clipUnit x)

/-- Shape parameters of the material generators with the Python default
values (`brightness=2.0`, `resonance=1.5`, `warmth=1.0`, `hardness=1.0`,
`softness=1.0`, `brittleness=1.5`, `elasticity=1.0`). -/
structure MaterialParams where
  brightness : ℚ := 2
  resonance : ℚ := 3/2
  warmth : ℚ := 1
  hardness : ℚ := 1
  softness : ℚ := 1
  brittleness : ℚ := 3/2
  elasticity : ℚ := 1

/-- The empty-buffer guard of `create_material_sound` and
`create_sound_object` (`src/haptic_renderer.py` lines 86-88 and
164-166): an empty buffer is replaced by the one-sample zero buffer. -/
def emptyGuard (buf : List ℤ) : List ℤ := if buf.length = 0 then [0] else buf

/-- `HapticRenderer.create_material_sound` (`src/haptic_renderer.py`
lines 131-168): dispatch on the material tag, any unrecognized tag
falling through to the plain sine `create_sound_buffer`; the resulting
buffer passes the empty-buffer guard. -/
def createMaterialSound (o : Osc) (rate : ℕ) (material_type : String)
    (hz ms amp fade_out_ms : ℚ) (mp : MaterialParams) : List ℤ :=
  let buf :=
    if material_type = "glass" then
      glassWaveform o rate hz ms amp fade_out_ms mp.brightness
    else if material_type = "metal" then
      metalWaveform o rate hz ms amp fade_out_ms mp.resonance
    else if material_type = "wood" then
      woodWaveform o rate hz ms amp fade_out_ms mp.warmth
    else if material_type = "plastic" then
      plasticWaveform o rate hz ms amp fade_out_ms mp.hardness
    else if material_type = "fabric" then
      fabricWaveform o rate hz ms amp fade_out_ms mp.softness
    else if material_type = "ceramic" then
      ceramicWaveform o rate hz ms amp fade_out_ms mp.brittleness
    else if material_type = "rubber" then
      rubberWaveform o rate hz ms amp fade_out_ms mp.elasticity
    else createSoundBuffer o rate hz ms amp fade_out_ms
  emptyGuard buf

theorem linTo_length (a b : ℚ) (n : ℕ) : (linTo a b n).length = n := by
  rw [linTo, List.length_map, List.length_range]

theorem mem_zipWith_elim {α β γ : Type} {f : α → β → γ} :
    ∀ {l₁ : List α} {l₂ : List β} {x : γ}, x ∈ List.zipWith f l₁ l₂ →
      ∃ a, a ∈ l₁ ∧ ∃ b, b ∈ l₂ ∧ x = f a b := by
  intro l₁
  induction l₁ with
  | nil => intro l₂ x h; simp at h
  | cons a as ih =>
    intro l₂ x h
    cases l₂ with
    | nil => simp at h
    | cons b bs =>
      simp only [List.zipWith_cons_cons, List.mem_cons] at h
      rcases h with h | h
      · exact ⟨a, by simp, b, by simp, h⟩
      · obtain ⟨a', ha, b', hb, rfl⟩ := ih h
        exact ⟨a', by simp [ha], b', by simp [hb], rfl⟩

theorem mem_linTo_one_zero {k : ℕ} {y : ℚ} (h : y ∈ linTo 1 0 k) :
    0 ≤ y ∧ y ≤ 1 := by
  simp only [linTo, List.mem_map, List.mem_range] at h
  obtain ⟨i, hi, rfl⟩ := h
  cases k with
  | zero => omega
  | succ j =>
    simp only [Nat.add_sub_cancel] at *
    by_cases hj : j = 0
    · have hi0 : i = 0 := by omega
      subst hj hi0
      norm_num
    · have hkpos : (0 : ℚ) < (j : ℚ) := by
        exact_mod_cast Nat.pos_of_ne_zero hj
      have hile : (i : ℚ) ≤ (j : ℚ) := by
        have : i ≤ j := by omega
        exact_mod_cast this
      have hnn : (0 : ℚ) ≤ (i : ℚ) / (j : ℚ) :=
        div_nonneg (by positivity) hkpos.le
      have hle1 : (i : ℚ) / (j : ℚ) ≤ 1 := (div_le_one hkpos).2 hile
      have hy : (1 : ℚ) + (0 - 1) * i / (j : ℚ) =
          1 - (i : ℚ) / (j : ℚ) := by ring
      rw [hy]
      constructor <;> linarith

theorem applyFadeOut_bounded (rate : ℕ) (fms : ℚ) {B : ℚ} {w : List ℚ}
    (hw : ∀ y ∈ w, |y| ≤ B) (hB : 0 ≤ B) :
    ∀ x ∈ applyFadeOut rate fms w, |x| ≤ B := by
  intro x hx
  simp only [applyFadeOut] at hx
  split_ifs at hx with h
  · rcases List.mem_append.1 hx with h1 | h2
    · exact hw x (List.mem_of_mem_take h1)
    · obtain ⟨a, ha, b, hb, rfl⟩ := mem_zipWith_elim h2
      have hA := hw a (List.mem_of_mem_drop ha)
      have hb' := mem_linTo_one_zero hb
      calc |a * b| = |a| * |b| := abs_mul a b
        _ ≤ B * 1 := by
            apply mul_le_mul hA _ (abs_nonneg b) hB
            rw [abs_of_nonneg hb'.1]
            exact hb'.2
        _ = B := mul_one B
  · exact hw x hx

theorem quantize_abs_le {x : ℚ} (h : |x| ≤ 1) :
    -32767 ≤ quantize x ∧ quantize x ≤ 32767 := by
  obtain ⟨hl, hr⟩ := abs_le.1 h
  have h1 : (-32767 : ℚ) ≤ x * 32767 := by nlinarith
  have h2 : x * 32767 ≤ (32767 : ℚ) := by nlinarith
  unfold quantize ratTrunc
  split_ifs with h0
  · constructor
    · have : (0 : ℤ) ≤ ⌊x * 32767⌋ := Int.floor_nonneg.2 (by positivity)
      omega
    · have hf := Int.floor_le_floor h2
      have : ⌊(32767 : ℚ)⌋ = 32767 := by norm_num
      omega
  · constructor
    · have hc := Int.ceil_le_ceil h1
      have he : ⌈(-32767 : ℚ)⌉ = -32767 := by
        rw [show (-32767 : ℚ) = ((-32767 : ℤ) : ℚ) by norm_num,
          Int.ceil_intCast]
      omega
    · have hx0 : x * 32767 ≤ 0 := by nlinarith [lt_of_not_ge h0]
      have hc := Int.ceil_le_ceil hx0
      have he : ⌈(0 : ℚ)⌉ = 0 := Int.ceil_zero
      omega

theorem clipUnit_abs_le (x : ℚ) : |clipUnit x| ≤ 1 := by
  rw [abs_le]
  exact ⟨le_min (le_max_right x (-1)) (by norm_num), min_le_right _ 1⟩

theorem clipUnit_eq_self {x : ℚ} (h : |x| ≤ 1) : clipUnit x = x := by
  obtain ⟨h1, h2⟩ := abs_le.1 h
  unfold clipUnit
  rw [max_eq_left h1, min_eq_left h2]

theorem applyFadeOut_length (rate : ℕ) (fms : ℚ) (w : List ℚ) :
    (applyFadeOut rate fms w).length = w.length := by
  simp only [applyFadeOut]
  split_ifs with h
  · obtain ⟨hk, -⟩ := h
    simp only [List.length_append, List.length_take, List.length_zipWith,
      List.length_drop, linTo_length]
    omega
  · rfl

theorem createSoundBuffer_length (o : Osc) (rate : ℕ) (hz ms amp f : ℚ) :
    (createSoundBuffer o rate hz ms amp f).length = nSamples rate ms := by
  simp [createSoundBuffer, applyFadeOut_length]

/-- Every element of a clip-then-quantize mapped list lies within the
signed 16-bit range, whatever the pre-clip samples are. -/
theorem clipQuantize_map_bound (l : List ℚ) :
    ∀ z ∈ l.map (fun x => quantize (clipUnit x)), -32767 ≤ z ∧ z ≤ 32767 := by
  intro z hz
  simp only [List.mem_map] at hz
  obtain ⟨y, -, rfl⟩ := hz
  exact quantize_abs_le (clipUnit_abs_le y)

/-- C8: under valid inputs (`|amp| <= 1` and a sine oracle bounded by 1,
as `np.sin` is), every sample of the returned buffers lies within the
signed 16-bit range: for every material family (glass, metal, wood,
plastic, fabric, ceramic, rubber) the bound holds for every oracle and
every amplitude because the signal is clipped to `[-1, 1]` before the
`* 32767` truncation toward zero; and the plain sine generator, which
has no clip step, produces the same buffer the clipped pipeline would,
so its samples obey the same bound. -/
theorem buffer_sample_bound (o : Osc) (rate : ℕ) (hz ms amp fade_out_ms : ℚ)
    (hs : ∀ q, |o.sinTwoPi q| ≤ 1) (ha : |amp| ≤ 1) :
    (∀ (o₂ : Osc) (rate₂ : ℕ) (hz₂ ms₂ amp₂ f₂ b₂ : ℚ),
      (∀ z ∈ glassWaveform o₂ rate₂ hz₂ ms₂ amp₂ f₂ b₂,
        -32767 ≤ z ∧ z ≤ 32767) ∧
      (∀ z ∈ metalWaveform o₂ rate₂ hz₂ ms₂ amp₂ f₂ b₂,
        -32767 ≤ z ∧ z ≤ 32767) ∧
      (∀ z ∈ woodWaveform o₂ rate₂ hz₂ ms₂ amp₂ f₂ b₂,
        -32767 ≤ z ∧ z ≤ 32767) ∧
      (∀ z ∈ plasticWaveform o₂ rate₂ hz₂ ms₂ amp₂ f₂ b₂,
        -32767 ≤ z ∧ z ≤ 32767) ∧
      (∀ z ∈ fabricWaveform o₂ rate₂ hz₂ ms₂ amp₂ f₂ b₂,
        -32767 ≤ z ∧ z ≤ 32767) ∧
      (∀ z ∈ ceramicWaveform o₂ rate₂ hz₂ ms₂ amp₂ f₂ b₂,
        -32767 ≤ z ∧ z ≤ 32767) ∧
      (∀ z ∈ rubberWaveform o₂ rate₂ hz₂ ms₂ amp₂ f₂ b₂,
        -32767 ≤ z ∧ z ≤ 32767)) ∧
    (∀ z ∈ createSoundBuffer o rate hz ms amp fade_out_ms,
      -32767 ≤ z ∧ z ≤ 32767) ∧
    createSoundBuffer o rate hz ms amp fade_out_ms =
      (applyFadeOut rate fade_out_ms ((List.range (nSamples rate ms)).map
        fun i => amp * o.sinTwoPi (hz * timeAt ms (nSamples rate ms) i))).map
        (fun x => quantize (clipUnit x)) := by
  have hwave : ∀ y ∈ (List.range (nSamples rate ms)).map
      (fun i => amp * o.sinTwoPi (hz * timeAt ms (nSamples rate ms) i)),
      |y| ≤ 1 := by
    intro y hy
    simp only [List.mem_map] at hy
    obtain ⟨i, -, rfl⟩ := hy
    calc |amp * o.sinTwoPi (hz * timeAt ms (nSamples rate ms) i)|
        = |amp| * |o.sinTwoPi (hz * timeAt ms (nSamples rate ms) i)| :=
          abs_mul _ _
      _ ≤ 1 * 1 := mul_le_mul ha (hs _) (abs_nonneg _) zero_le_one
      _ = 1 := mul_one 1
  have hfade := applyFadeOut_bounded rate fade_out_ms hwave zero_le_one
  refine ⟨?_, ?_, ?_⟩
  · intro o₂ rate₂ hz₂ ms₂ amp₂ f₂ b₂
    refine ⟨?_, ?_, ?_, ?_, ?_, ?_, ?_⟩
    · simp only [glassWaveform]
      exact clipQuantize_map_bound _
    · simp only [metalWaveform]
      exact clipQuantize_map_bound _
    · simp only [woodWaveform]
      exact clipQuantize_map_bound _
    · simp only [plasticWaveform]
      exact clipQuantize_map_bound _
    · simp only [fabricWaveform]
      exact clipQuantize_map_bound _
    · simp only [ceramicWaveform]
      exact clipQuantize_map_bound _
    · simp only [rubberWaveform]
      exact clipQuantize_map_bound _
  · intro z hzm
    simp only [createSoundBuffer, List.mem_map] at hzm
    obtain ⟨y, hy, rfl⟩ := hzm
    exact quantize_abs_le (hfade y hy)
  · simp only [createSoundBuffer]
    apply List.map_congr_left
    intro y hy
    rw [clipUnit_eq_self (hfade y hy)]

/-- Oracle for the C8 witness: constant sine value 1 (within the `np.sin`
range). -/
def oscC8 : Osc := ⟨fun _ => 1, fun _ => 0, fun _ => 1⟩

/-- Witness for C8 at the concrete input `rate=4`, `hz=1`, `ms=500`,
`amp=1/2`, `fade_out_ms=10`. -/
theorem buffer_sample_bound_witness :
    ((∀ q, |oscC8.sinTwoPi q| ≤ 1) ∧ |(1/2 : ℚ)| ≤ 1) ∧
    ((∀ (o₂ : Osc) (rate₂ : ℕ) (hz₂ ms₂ amp₂ f₂ b₂ : ℚ),
      (∀ z ∈ glassWaveform o₂ rate₂ hz₂ ms₂ amp₂ f₂ b₂,
        -32767 ≤ z ∧ z ≤ 32767) ∧
      (∀ z ∈ metalWaveform o₂ rate₂ hz₂ ms₂ amp₂ f₂ b₂,
        -32767 ≤ z ∧ z ≤ 32767) ∧
      (∀ z ∈ woodWaveform o₂ rate₂ hz₂ ms₂ amp₂ f₂ b₂,
        -32767 ≤ z ∧ z ≤ 32767) ∧
      (∀ z ∈ plasticWaveform o₂ rate₂ hz₂ ms₂ amp₂ f₂ b₂,
        -32767 ≤ z ∧ z ≤ 32767) ∧
      (∀ z ∈ fabricWaveform o₂ rate₂ hz₂ ms₂ amp₂ f₂ b₂,
        -32767 ≤ z ∧ z ≤ 32767) ∧
      (∀ z ∈ ceramicWaveform o₂ rate₂ hz₂ ms₂ amp₂ f₂ b₂,
        -32767 ≤ z ∧ z ≤ 32767) ∧
      (∀ z ∈ rubberWaveform o₂ rate₂ hz₂ ms₂ amp₂ f₂ b₂,
        -32767 ≤ z ∧ z ≤ 32767)) ∧
    (∀ z ∈ createSoundBuffer oscC8 4 1 500 (1/2) 10,
      -32767 ≤ z ∧ z ≤ 32767) ∧
    createSoundBuffer oscC8 4 1 500 (1/2) 10 =
      (applyFadeOut 4 10 ((List.range (nSamples 4 500)).map
        fun i => 1/2 * oscC8.sinTwoPi (1 * timeAt 500 (nSamples 4 500) i))).map
        (fun x => quantize (clipUnit x))) :=
  ⟨⟨fun q => by norm_num [oscC8], by rw [abs_le]; constructor <;> norm_num⟩,
   buffer_sample_bound oscC8 4 1 500 (1/2) 10
     (fun q => by norm_num [oscC8])
     (by rw [abs_le]; constructor <;> norm_num)⟩

/-- C9: an unrecognized material tag makes `create_material_sound` fall
through to the plain sine `create_sound_buffer` with the same
`(hz, ms, amp, fade_out_ms)` and no material coloration; the returned
buffer equals the sine buffer sample for sample (through the shared
empty-buffer guard, which is the identity whenever the requested duration
yields at least one sample).  The embedding is total, so no exception is
possible. -/
theorem material_fallback_sine (o : Osc) (rate : ℕ)
    (hz ms amp fade_out_ms : ℚ) (mp : MaterialParams) (mat : String)
    (h : mat ∉ (["glass", "metal", "wood", "plastic", "fabric",
                 "ceramic", "rubber"] : List String)) :
    createMaterialSound o rate mat hz ms amp fade_out_ms mp =
      emptyGuard (createSoundBuffer o rate hz ms amp fade_out_ms) ∧
    (nSamples rate ms ≠ 0 →
      createMaterialSound o rate mat hz ms amp fade_out_ms mp =
        createSoundBuffer o rate hz ms amp fade_out_ms) := by
  simp only [List.mem_cons, List.mem_singleton, not_or] at h
  obtain ⟨h1, h2, h3, h4, h5, h6, h7, -⟩ := h
  have hbase : createMaterialSound o rate mat hz ms amp fade_out_ms mp =
      emptyGuard (createSoundBuffer o rate hz ms amp fade_out_ms) := by
    simp only [createMaterialSound, if_neg h1, if_neg h2, if_neg h3,
      if_neg h4, if_neg h5, if_neg h6, if_neg h7]
  refine ⟨hbase, fun hn => ?_⟩
  rw [hbase, emptyGuard, if_neg]
  rw [createSoundBuffer_length]
  exact hn

/-- Witness for C9: the unregistered tag is dispatched to the plain sine
generator at `rate=4`, `ms=500` (two samples, so the guard is the
identity). -/
theorem material_fallback_sine_witness :
    (("stone" : String) ∉ (["glass", "metal", "wood", "plastic", "fabric",
                 "ceramic", "rubber"] : List String) ∧
     nSamples 4 500 ≠ 0) ∧
    createMaterialSound oscC8 4 "stone" 1 500 (1/2) 10 {} =
      emptyGuard (createSoundBuffer oscC8 4 1 500 (1/2) 10) ∧
    createMaterialSound oscC8 4 "stone" 1 500 (1/2) 10 {} =
      createSoundBuffer oscC8 4 1 500 (1/2) 10 := by
  have h : ("stone" : String) ∉ (["glass", "metal", "wood", "plastic",
      "fabric", "ceramic", "rubber"] : List String) := by decide
  have hn : nSamples 4 500 ≠ 0 := by
    norm_num [nSamples, ratTrunc]
  have := material_fallback_sine oscC8 4 1 500 (1/2) 10 {} "stone" h
  exact ⟨⟨h, hn⟩, this.1, this.2 hn⟩

/-- Quantizing a zero sample gives the zero 16-bit sample. -/
theorem quantize_zero : quantize 0 = 0 := by
  norm_num [quantize, ratTrunc]

/-- The last coefficient of the inclusive ramp `np.linspace(1, 0, k)` is
exactly 0 whenever the ramp has at least two points. -/
theorem linTo_last_zero {k : ℕ} (h2 : 2 ≤ k) : (linTo 1 0 k)[k - 1]? = some 0 := by
  unfold linTo
  rw [List.getElem?_map, List.getElem?_range (by omega : k - 1 < k)]
  simp only [Option.map_some']
  have hc : ((k - 1 : ℕ) : ℚ) = (k : ℚ) - 1 :=
    Nat.cast_sub (by omega : 1 ≤ k)
  have hk1 : ((k : ℚ) - 1) ≠ 0 := by
    have h2' : (2 : ℚ) ≤ (k : ℚ) := by exact_mod_cast h2
    intro heq
    linarith
  congr 1
  rw [hc]
  field_simp

/-- When the fade-out actually fires (window strictly shorter than the
buffer, at least two fade samples) the final quantized sample is
exactly 0. -/
theorem applyFadeOut_map_quantize_getLast (rate : ℕ) (fms : ℚ) (w : List ℚ)
    (hf : 0 < fms) (h2 : 2 ≤ (ratTrunc ((rate : ℚ) * fms / 1000)).toNat)
    (hk : (ratTrunc ((rate : ℚ) * fms / 1000)).toNat < w.length) :
    ((applyFadeOut rate fms w).map quantize).getLast? = some 0 := by
  set k := (ratTrunc ((rate : ℚ) * fms / 1000)).toNat with hkdef
  have hlen : ((applyFadeOut rate fms w).map quantize).length = w.length := by
    rw [List.length_map, applyFadeOut_length]
  rw [List.getLast?_eq_getElem?, hlen]
  have hsplit : applyFadeOut rate fms w =
      w.take (w.length - k) ++
        List.zipWith (· * ·) (w.drop (w.length - k)) (linTo 1 0 k) := by
    simp only [applyFadeOut]
    rw [if_pos ⟨hk, hf⟩]
  rw [hsplit, List.getElem?_map]
  have htl : (w.take (w.length - k)).length = w.length - k := by
    rw [List.length_take]; omega
  rw [List.getElem?_append_right (by rw [htl]; omega), htl]
  have hidx : w.length - 1 - (w.length - k) = k - 1 := by omega
  rw [hidx, List.getElem?_zipWith', List.getElem?_drop]
  have hdix : w.length - k + (k - 1) = w.length - 1 := by omega
  rw [hdix]
  have hwl : w.length - 1 < w.length := by omega
  rw [List.getElem?_eq_getElem hwl, linTo_last_zero h2]
  simp [quantize_zero]

/-- Modelled from the spec: section 4.4 step 5 — the linear fade-out is
applied over the last `fade_out_ms`, or over the whole buffer when the
buffer is shorter; the window is capped at the buffer length. -/
def specFadeOut (rate : ℕ) (fade_out_ms : ℚ) (w : List ℚ) : List ℚ :=
  let k := min (ratTrunc ((rate : ℚ) * fade_out_ms / 1000)).toNat w.length
  if 0 < fade_out_ms then
    w.take (w.length - k) ++
      List.zipWith (· * ·) (w.drop (w.length - k)) (linTo 1 0 k)
  else w

/-- Modelled from the spec: the plain sine buffer as the claim describes
it, with the fade window capped at the buffer length instead of skipped
for short buffers. -/
def specSineBuffer (o : Osc) (rate : ℕ) (hz ms amp fade_out_ms : ℚ) :
    List ℤ :=
  let n := nSamples rate ms
  let w := (List.range n).map fun i => amp * o.sinTwoPi (hz * timeAt ms n i)
  (specFadeOut rate fade_out_ms w).map quantize

/-- Oracle for the C6 counterexample; it agrees with `sin(2*pi*q)` at the
two sample points 0 and 1/4 the instance uses. -/
def osc6 : Osc := ⟨fun q => if q = 1/4 then 1 else 0, fun _ => 0, fun _ => 0⟩

/-- Counterexample to C6 as stated: at `rate=4`, `hz=1`, `ms=500`,
`amp=1`, `fade_out_ms=1000` the buffer (two samples) is shorter than the
fade window (four samples), and `create_sound_buffer` applies no fade at
all — the terminal sample stays at full amplitude 32767 — while the
fade-over-the-whole-buffer behaviour the claim describes would end at
0. -/
theorem fade_skip_counterexample :
    createSoundBuffer osc6 4 1 500 1 1000 = [0, 32767] ∧
    specSineBuffer osc6 4 1 500 1 1000 = [0, 0] ∧
    createSoundBuffer osc6 4 1 500 1 1000 ≠
      specSineBuffer osc6 4 1 500 1 1000 := by
  have hn : nSamples 4 500 = 2 := by norm_num [nSamples, ratTrunc]; rfl
  have hw : (List.range 2).map
      (fun i => (1 : ℚ) * osc6.sinTwoPi (1 * timeAt 500 2 i)) =
      [0, 1] := by
    norm_num [List.range_succ, timeAt, osc6]
  have h1 : createSoundBuffer osc6 4 1 500 1 1000 = [0, 32767] := by
    simp only [createSoundBuffer, hn, hw]
    norm_num [applyFadeOut, ratTrunc, quantize]
  have h2 : specSineBuffer osc6 4 1 500 1 1000 = [0, 0] := by
    simp only [specSineBuffer, hn, hw]
    norm_num [specFadeOut, ratTrunc, linTo, List.range_succ, quantize]
  exact ⟨h1, h2, by rw [h1, h2]; decide⟩

/-- Peak absolute sample of a quantized buffer segment. -/
def peakAbs (l : List ℤ) : ℤ := l.foldr (fun z m => max |z| m) 0

/-- C6 (amended): `create_sound_buffer` applies the linear fade-out only
when the buffer is strictly longer than the fade window — a buffer not
longer than the window is returned entirely un-faded — and when the fade
fires (window of at least two samples) the terminal sample is exactly 0,
hence strictly smaller in magnitude than any positive peak of the
un-faded segment preceding the fade window. -/
theorem fade_out_amended (o : Osc) (rate : ℕ) (hz ms amp fade_out_ms : ℚ)
    (hf : 0 < fade_out_ms)
    (h2 : 2 ≤ (ratTrunc ((rate : ℚ) * fade_out_ms / 1000)).toNat)
    (hk : (ratTrunc ((rate : ℚ) * fade_out_ms / 1000)).toNat <
      nSamples rate ms) :
    (∀ w : List ℚ,
      ¬ (ratTrunc ((rate : ℚ) * fade_out_ms / 1000)).toNat < w.length →
      applyFadeOut rate fade_out_ms w = w) ∧
    (createSoundBuffer o rate hz ms amp fade_out_ms).getLast? = some 0 ∧
    (0 < peakAbs ((createSoundBuffer o rate hz ms amp fade_out_ms).take
        (nSamples rate ms -
          (ratTrunc ((rate : ℚ) * fade_out_ms / 1000)).toNat)) →
      ∀ z, (createSoundBuffer o rate hz ms amp fade_out_ms).getLast? = some z →
        |z| < peakAbs ((createSoundBuffer o rate hz ms amp fade_out_ms).take
          (nSamples rate ms -
            (ratTrunc ((rate : ℚ) * fade_out_ms / 1000)).toNat))) := by
  have hwlen : ((List.range (nSamples rate ms)).map
      fun i => amp * o.sinTwoPi (hz * timeAt ms (nSamples rate ms) i)).length =
      nSamples rate ms := by
    rw [List.length_map, List.length_range]
  have hlast : (createSoundBuffer o rate hz ms amp fade_out_ms).getLast? =
      some 0 := by
    simp only [createSoundBuffer]
    exact applyFadeOut_map_quantize_getLast rate fade_out_ms _ hf h2
      (by rw [hwlen]; exact hk)
  refine ⟨?_, hlast, ?_⟩
  · intro w hw
    simp only [applyFadeOut]
    exact if_neg (fun hc => hw hc.1)
  · intro hp z hz
    rw [hlast] at hz
    obtain rfl : (0 : ℤ) = z := by injection hz
    simpa using hp

/-- Witness for the amended C6 at `rate=4`, `ms=2000`, `fade_out_ms=1000`:
8 samples, fade window 4 samples, terminal sample 0. -/
theorem fade_out_amended_witness :
    ((0 : ℚ) < 1000 ∧
     2 ≤ (ratTrunc ((4 : ℕ) * (1000 : ℚ) / 1000)).toNat ∧
     (ratTrunc ((4 : ℕ) * (1000 : ℚ) / 1000)).toNat < nSamples 4 2000) ∧
    ((∀ w : List ℚ,
      ¬ (ratTrunc ((4 : ℕ) * (1000 : ℚ) / 1000)).toNat < w.length →
      applyFadeOut 4 1000 w = w) ∧
    (createSoundBuffer oscC8 4 1 2000 1 1000).getLast? = some 0 ∧
    (0 < peakAbs ((createSoundBuffer oscC8 4 1 2000 1 1000).take
        (nSamples 4 2000 - (ratTrunc ((4 : ℕ) * (1000 : ℚ) / 1000)).toNat)) →
      ∀ z, (createSoundBuffer oscC8 4 1 2000 1 1000).getLast? = some z →
        |z| < peakAbs ((createSoundBuffer oscC8 4 1 2000 1 1000).take
          (nSamples 4 2000 -
            (ratTrunc ((4 : ℕ) * (1000 : ℚ) / 1000)).toNat)))) :=
  ⟨⟨by norm_num, by norm_num [ratTrunc, Int.toNat_ofNat],
    by norm_num [ratTrunc, nSamples, Int.toNat_ofNat]⟩,
   fade_out_amended oscC8 4 1 2000 1 1000 (by norm_num)
     (by norm_num [ratTrunc, Int.toNat_ofNat])
     (by norm_num [ratTrunc, nSamples, Int.toNat_ofNat])⟩

/-! ## Pi UDP control server (`src/pi/spike_haptic_raspi.py`) -/

/-- The fields of a decoded JSON control message that
`SpikeHapticPi.callback_message` reads; a `none` field models a key
absent from the JSON object. -/
structure CtrlMsg where
  command : Option String
  types : Option String
  channel_id : Option ℤ
  volume : Option ℚ
  hz : Option ℤ
  ms : Option ℤ
  amp : Option ℚ
  fade_out_ms : Option ℤ
  deriving Repr, DecidableEq

/-- Decode outcome of one inbound UDP datagram: valid JSON, a
`json.JSONDecodeError` from `json.loads`, or a `UnicodeDecodeError` from
`data.decode("utf-8")`. -/
inductive Datagram
  | ok (m : CtrlMsg)
  | badJson
  | badUtf8
  deriving Repr, DecidableEq

/-- The externally visible commands the server can execute
(`play` on the SA or RA buffer, `change`, hardware `reset`). -/
inductive ServerAction
  | playSA (channel : ℤ) (volume : ℚ)
  | playRA (channel : ℤ) (volume : ℚ)
  | change (hz ms : ℤ) (amp : ℚ) (fade : ℤ)
  | reset
  deriving Repr, DecidableEq

/-- Uncaught Python exceptions that terminate the receive thread. -/
inductive LoopCrash
  | nameError
  | unicodeError
  | keyError
  deriving Repr, DecidableEq

/-- The command dispatch of `callback_message`
(`src/pi/spike_haptic_raspi.py` lines 62-73): a truthy `command` field
selects `play` (which reads `types`, `channel_id`, `volume`), `change`
(which reads `hz`, `ms`, `amp`, `fade_out_ms`) or `reset`; a missing key
raises an uncaught `KeyError`; unknown commands and unknown `types` do
nothing. -/
def dispatchMsg (m : CtrlMsg) : Except LoopCrash (Option ServerAction) :=
  match m.command with
  | none => .ok none
  | some c =>
    if c = "" then .ok none
    else if c = "play" then
      match m.types with
      | none => .error .keyError
      | some t =>
        if t = "sa" then
          match m.channel_id, m.volume with
          | some ch, some v => .ok (some (.playSA ch v))
          | _, _ => .error .keyError
        else if t = "ra" then
          match m.channel_id, m.volume with
          | some ch, some v => .ok (some (.playRA ch v))
          | _, _ => .error .keyError
        else .ok none
    else if c = "change" then
      match m.hz, m.ms, m.amp, m.fade_out_ms with
      | some h, some s, some a, some f => .ok (some (.change h s a f))
      | _, _, _, _ => .error .keyError
    else if c = "reset" then .ok (some .reset)
    else .ok none

/-- One iteration of the receive loop of
`SpikeHapticPi.callback_message` (`src/pi/spike_haptic_raspi.py` lines
40-80).  The input is the current binding of the Python local `msg`
(`none` before the first successful decode) and the decode outcome of the
arriving datagram; the output is whether a decode failure was logged,
and either (the action executed this iteration, the new `msg` binding) or
the uncaught exception that kills the thread.  The `except
json.JSONDecodeError` handler only prints, after which control falls
through to `if msg.get("command")` with `msg` still holding its previous
value — or unbound on the first iteration. -/
def callbackIteration (msgBound : Option CtrlMsg) (d : Datagram) :
    Bool × Except LoopCrash (Option ServerAction × Option CtrlMsg) :=
  match d with
  | .badUtf8 => (false, .error .unicodeError)
  | .ok m => (false, (dispatchMsg m).map fun a => (a, some m))
  | .badJson =>
    (true,
     match msgBound with
     | none => .error .nameError
     | some m => (dispatchMsg m).map fun a => (a, some m))

/-- A well-formed `play` message as `main.py`'s communication module
sends it. -/
def playMsg : CtrlMsg :=
  ⟨some "play", some "sa", some 0, some (9/10), none, none, none, none⟩

/-- C7 exhibit: the receive loop does not merely drop a malformed
datagram.  On the first iteration a non-JSON datagram leaves `msg`
unbound and the dispatch raises an uncaught `NameError`, killing the
receive thread; after a valid `play` message, a malformed datagram
re-executes the previous `play` command (the decode failure is logged,
but a command still runs in response to the malformed datagram); and a
non-UTF-8 datagram raises an uncaught `UnicodeDecodeError` in every
state. -/
theorem malformed_datagram_replays :
    callbackIteration none Datagram.badJson =
      (true, Except.error LoopCrash.nameError) ∧
    callbackIteration (some playMsg) Datagram.badJson =
      (true, Except.ok
        (some (ServerAction.playSA 0 (9/10)), some playMsg)) ∧
    callbackIteration (some playMsg) Datagram.badUtf8 =
      (false, Except.error LoopCrash.unicodeError) :=
  ⟨rfl, rfl, rfl⟩

end HapticRing
